import Mathlib

/-!
Verification development for the `dd2424-covid19-detection` repository.

The repository trains and evaluates COVID-19 chest X-ray classifiers built
on TensorFlow/Keras: a custom COVIDNet architecture
(`src/covid19/models/_covidnet.py`), a transfer-learning ResNet50 model
(`src/covid19/models/_resnet50.py`), training drivers
(`src/scripts/pretrain.py`, `src/train.py`), an evaluation driver
(`src/scripts/evaluate.py`), and plotting helpers
(`src/covid19/metrics/training.py`).

This file shallowly embeds the parts of that code that the verified
properties are about:
  * a shape-level semantics of the Keras layers the models stack
    (convolution, pooling, flatten, dense, batch normalization, ReLU),
  * the value-level semantics of the final softmax classifier layer over
    exact reals,
  * the constructors and training-phase operations of the two model
    classes (trainable/frozen flags, error behavior),
  * the class-weight computation of `pretrain.py` over exact rationals,
  * the class-name ordering logic of `evaluate.py` and `train.py`,
  * the directory-preparation logic of `pretrain.py` over an explicit
    filesystem state, and
  * the in-place history mutation performed by `plot_learning_curves`.

Machine floats are modelled by exact rationals or reals; Python dicts by
association lists in insertion order; Python exceptions by `Except` or by
an explicit error component of the result.
-/

namespace Covid19

/-! ### Shape-level semantics of the Keras layers used by the models

A tensor shape is its list of dimensions, e.g. `[n, h, w, c]` for a batch
of `n` images of height `h`, width `w` and `c` channels.  Each layer is a
partial function on shapes; `none` means the framework rejects the input
rank or sizes. -/

abbrev Shape := List Nat

/-- Output length of a dimension under `padding='same'`: `⌈n / stride⌉`. -/
def samePadOut (stride n : Nat) : Nat := (n + stride - 1) / stride

/-- Output length of a dimension under `padding='valid'`:
`(n - kernel) / stride + 1` (defined when `kernel ≤ n`). -/
def validPadOut (kernel stride n : Nat) : Nat := (n - kernel) / stride + 1

/-- Shape semantics of `tf.keras.layers.Conv2D(filters, kernel, strides,
padding)` on a rank-4 input `[n, h, w, c]`. -/
def conv2dShape (filters kernel stride : Nat) (samePad : Bool) : Shape → Option Shape
  | [n, h, w, _] =>
    if samePad then
      some [n, samePadOut stride h, samePadOut stride w, filters]
    else if kernel ≤ h ∧ kernel ≤ w then
      some [n, validPadOut kernel stride h, validPadOut kernel stride w, filters]
    else
      none
  | _ => none

/-- Shape semantics of `tf.keras.layers.MaxPool2D(pool_size, strides,
padding='same')` on a rank-4 input. -/
def maxPool2dSameShape (stride : Nat) : Shape → Option Shape
  | [n, h, w, c] => some [n, samePadOut stride h, samePadOut stride w, c]
  | _ => none

/-- Shape semantics of `tf.keras.layers.BatchNormalization` (shape preserving). -/
def batchNormShape (s : Shape) : Option Shape := some s

/-- Shape semantics of `tf.keras.layers.ReLU` (shape preserving). -/
def reluShape (s : Shape) : Option Shape := some s

/-- Modelled from the spec: `covid19.layers.Rescaling` (the module
`covid19/layers` is not under `src/`) is the learnable input-rescaling
transform mapping pixel values into `[-1, 1]`; it is a pointwise value
transform and preserves the tensor shape. -/
def rescalingShape (s : Shape) : Option Shape := some s

/-- Modelled from the spec: `covid19.layers.PEPXBlock channels` (the module
`covid19/layers` is not under `src/`) is the four-stage
projection–expansion–depthwise–projection–extension unit; per the spec its
contract is that input and output spatial dimensions are preserved and the
output channel count equals the configured width, for any input channel
count. -/
def pepxShape (channels : Nat) : Shape → Option Shape
  | [n, h, w, _] => some [n, h, w, channels]
  | _ => none

/-- Shape semantics of `tf.keras.layers.add`: both summands must have the
same shape, which is also the output shape. -/
def addShape (s t : Shape) : Option Shape :=
  if s = t then some s else none

/-- Shape semantics of `tf.keras.layers.Flatten`: collapse all non-batch
dimensions. -/
def flattenShape : Shape → Option Shape
  | n :: rest => some [n, rest.prod]
  | [] => none

/-- Shape semantics of `tf.keras.layers.Dense(units)` on a rank-2 input. -/
def denseShape (units : Nat) : Shape → Option Shape
  | [n, _] => some [n, units]
  | _ => none

/-! ### `_COVIDNetBlock` (src/covid19/models/_covidnet.py, lines 8-34)

The block holds a shortcut branch `Conv2D(channels, 1); BatchNormalization;
ReLU`, a main branch of `n_pepx` PEPX units each summed with the shortcut
output, and a final `MaxPool2D(3, strides=2, padding='same')`. -/

/-- Shape of the shortcut branch `_branch_conv`:
`Conv2D(channels, 1)` (defaults: stride 1, `padding='valid'`) followed by
the shape-preserving `BatchNormalization` and `ReLU`. -/
def branchConvShape (channels : Nat) (s : Shape) : Option Shape := do
  let s ← conv2dShape channels 1 1 false s
  let s ← batchNormShape s
  reluShape s

/-- The loop of `_COVIDNetBlock.call`: starting from `x = inputs`, repeat
`n_pepx` times `x = self._branch_pepx[i](x); x = add([x, branch_conv_output])`. -/
def covidnetBlockLoop (channels : Nat) (branchConvOut : Shape) : Nat → Shape → Option Shape
  | 0, x => some x
  | n + 1, x => do
    let y ← pepxShape channels x
    let z ← addShape y branchConvOut
    covidnetBlockLoop channels branchConvOut n z

/-- Shape semantics of `_COVIDNetBlock(channels, n_pepx).call`. -/
def covidnetBlockShape (channels nPepx : Nat) (s : Shape) : Option Shape := do
  let branchConvOut ← branchConvShape channels s
  let x ← covidnetBlockLoop channels branchConvOut nPepx s
  maxPool2dSameShape 2 x

/-! ### `COVIDNet` (src/covid19/models/_covidnet.py, lines 42-109) -/

/-- The layer stack of a successfully constructed `COVIDNet`: feature
extractor (`Rescaling`, initial `Conv2D(64, 7, strides=2, padding='same')` +
BN + ReLU stem, four `_COVIDNetBlock`s of widths 256/512/1024/2048 with
3/4/5/3 PEPX units) and classifier (`Flatten`, two `Dense(1024, relu)`,
`Dense(3, softmax)`).  The final dense layer has the fixed width 3; the
constructor takes no class-count parameter. -/
structure COVIDNetModel where
  blockWidths : List Nat
  blockPepxCounts : List Nat
  classifierHiddenUnits : List Nat
  outputUnits : Nat
  deriving Repr, DecidableEq

/-- Constructor `COVIDNet.__init__(self, name='covidnet', weights='imagenet')`:
raises `NotImplementedError` when `weights is not None` (line 61), before
any layer of the model is built; otherwise builds the fixed layer stack.
Python is untyped, so the `name` argument is allowed to be of any type `α`
(the call `COVIDNet(n_classes, weights=None)` in `src/scripts/pretrain.py`
passes an integer into it). -/
def covidnetInit {α : Type} (_name : α) (weights : Option String) :
    Except String COVIDNetModel :=
  match weights with
  | some _ => .error "NotImplementedError"
  | none =>
    .ok { blockWidths := [256, 512, 1024, 2048]
          blockPepxCounts := [3, 4, 5, 3]
          classifierHiddenUnits := [1024, 1024]
          outputUnits := 3 }

/-- Default value of the `weights` parameter of `COVIDNet.__init__`. -/
def covidnetDefaultWeights : Option String := some "imagenet"

/-- The `get_model` path of `src/scripts/pretrain.py` (line 22) for the
`covidnet` architecture: `COVIDNet(n_classes, weights=None)` — the class
count requested by the caller is passed positionally into the `name`
parameter of the constructor. -/
def getModelCovidnet (nClasses : Nat) : Except String COVIDNetModel :=
  covidnetInit nClasses none

/-- Shape semantics of the reshape in `COVIDNet.call` (line 94):
`tf.reshape(inputs, (-1, 224, 224, 3))`, defined when the total element
count is divisible by `224 * 224 * 3`. -/
def reshapeToImage (s : Shape) : Option Shape :=
  let t := s.prod
  let m := 224 * 224 * 3
  if t % m = 0 then some [t / m, 224, 224, 3] else none

/-- Shape semantics of the initial stem `conv_initial`:
`Conv2D(64, 7, strides=(2, 2), padding='same')` + BN + ReLU. -/
def covidnetStemShape (s : Shape) : Option Shape := do
  let s ← conv2dShape 64 7 2 true s
  let s ← batchNormShape s
  reluShape s

/-- Shape semantics of `COVIDNet.call`: reshape, rescale, stem, the four
blocks, then the classifier `Flatten; Dense(1024); Dense(1024); Dense(3)`. -/
def covidnetForwardShape (s : Shape) : Option Shape := do
  let s ← reshapeToImage s
  let s ← rescalingShape s
  let s ← covidnetStemShape s
  let s ← covidnetBlockShape 256 3 s
  let s ← covidnetBlockShape 512 4 s
  let s ← covidnetBlockShape 1024 5 s
  let s ← covidnetBlockShape 2048 3 s
  let s ← flattenShape s
  let s ← denseShape 1024 s
  let s ← denseShape 1024 s
  denseShape 3 s

/-! ### Value-level semantics of the final classifier layer

The claims about output rows being probability distributions concern the
final `Dense(3, activation='softmax')` layer (line 82 of `_covidnet.py`).
Machine floats are idealised as exact reals. -/

/-- Softmax over a list of logits: entry `i` is
`exp xᵢ / Σⱼ exp xⱼ` (the semantics of Keras's `softmax` activation). -/
noncomputable def softmax (xs : List ℝ) : List ℝ :=
  xs.map fun x => Real.exp x / (xs.map Real.exp).sum

/-- Dot product of a weight row with an input vector. -/
def dotList (w x : List ℝ) : ℝ := (List.zipWith (· * ·) w x).sum

/-- Value semantics of `Dense(units, activation='softmax')`: an affine map
given by weight rows `W` and biases `b`, followed by softmax. -/
noncomputable def denseSoftmax (W : List (List ℝ)) (b : List ℝ) (x : List ℝ) : List ℝ :=
  softmax (List.zipWith (fun w bi => dotList w x + bi) W b)

/-! ### `ResNet50` (src/covid19/models/_resnet50.py)

The model state tracked here is what the freeze/unfreeze and
training-mode claims are about: the `_from_scratch` flag fixed at
construction, the `trainable` flags of the feature-extractor container and
of each of its layers, and the `trainable` flag of the classifier head.

Keras semantics used: assigning `model.trainable = b` on a container
propagates `b` to every nested layer; a layer's weights are effectively
trainable only if its own flag and its container's flag are both set. -/

structure ResNet50Model where
  /-- `self._from_scratch = weights is None` (line 26). -/
  fromScratch : Bool
  /-- `trainable` flag of the `feature_extractor` container. -/
  feContainerTrainable : Bool
  /-- `trainable` flags of `feature_extractor.layers`, in order. -/
  feLayerTrainable : List Bool
  /-- `trainable` flag of the `classifier` head. -/
  classifierTrainable : Bool
  deriving Repr, DecidableEq

/-- Constructor `ResNet50.__init__(n_classes, name, weights)`: records
`_from_scratch = weights is None`; all layers of a freshly built Keras
model are trainable.  `feLayerCount` abstracts the number of layers of the
`feature_extractor` container. -/
def resnet50Init (weights : Option String) (feLayerCount : Nat) : ResNet50Model :=
  { fromScratch := weights.isNone
    feContainerTrainable := true
    feLayerTrainable := List.replicate feLayerCount true
    classifierTrainable := true }

/-- The `training` argument that `ResNet50.call` passes to the backbone
(line 57): `training=False if self._from_scratch else training`.
`none` models Python's `None` default. -/
def resnet50BackboneTrainingArg (m : ResNet50Model) (training : Option Bool) :
    Option Bool :=
  if m.fromScratch then some false else training

/-- The `training` argument that `COVIDNet.call` passes to its feature
extractor (line 95 of `_covidnet.py`): `training=self._from_scratch`. -/
def covidnetBackboneTrainingArg (fromScratch : Bool) : Option Bool :=
  some fromScratch

/-- Keras `trainable` assignment on the feature-extractor container: sets
the container flag and propagates to every nested layer. -/
def setFeTrainable (m : ResNet50Model) (b : Bool) : ResNet50Model :=
  { m with
    feContainerTrainable := b
    feLayerTrainable := m.feLayerTrainable.map fun _ => b }

/-- Phase operation `ResNet50.fit_linear_classifier` (lines 66-70):
`self.feature_extractor.trainable = False`, then delegates to
`compile_and_fit`. -/
def fitLinearClassifier (m : ResNet50Model) : ResNet50Model :=
  setFeTrainable m false

/-- Number of elements of the Python slice `l[:n]` for a list of length
`len`, covering negative `n` (Python semantics). -/
def pySliceStop (n : Int) (len : Nat) : Nat :=
  if n < 0 then (len - n.natAbs) else min n.toNat len

/-- Set the first `cutoff` flags of a layer list to `false`
(`for layer in self.feature_extractor.layers[:fine_tune_at]:
layer.trainable = False`). -/
def freezeBelow : Nat → List Bool → List Bool
  | _, [] => []
  | 0, l => l
  | n + 1, _ :: l => false :: freezeBelow n l

/-- Phase operation `ResNet50.fine_tune` (lines 72-80): raises `ValueError` when
`fine_tune_at > len(self.feature_extractor.layers)` before touching any
flag; otherwise unfreezes the whole feature extractor, re-freezes the
layers in `layers[:fine_tune_at]` and delegates to `compile_and_fit`.
`fine_tune_at` is a Python `int`, hence `Int`. -/
def fineTune (m : ResNet50Model) (fineTuneAt : Int) : Except String ResNet50Model :=
  if fineTuneAt > (m.feLayerTrainable.length : Int) then
    .error "ValueError: Too big fine_tune_at, more than the number of layers"
  else
    let m1 := setFeTrainable m true
    .ok { m1 with
          feLayerTrainable :=
            freezeBelow (pySliceStop fineTuneAt m1.feLayerTrainable.length)
              m1.feLayerTrainable }

/-- A backbone layer's weights are effectively trainable iff its own flag
and the container's flag are both set. -/
def feEffectiveTrainable (m : ResNet50Model) (i : Nat) : Bool :=
  m.feContainerTrainable && m.feLayerTrainable.getD i false

/-! ### Class-weight computation (src/scripts/pretrain.py, lines 55-65) -/

/-- The slice of `train_ds_info` that `get_class_weights` reads: the
per-sample integer labels, the class-name-to-label dictionary, the total
image count and the class count. -/
structure DatasetInfo where
  labels : List Nat
  classLabels : List (String × Nat)
  nImages : Nat
  nClasses : Nat
  deriving Repr, DecidableEq

/-- The count `len(np.where(train_ds_info['labels'] == class_label)[0])`: the number
of samples carrying a given label. -/
def countLabel (info : DatasetInfo) (c : Nat) : Nat :=
  (info.labels.filter fun l => l = c).length

/-- Embedding of `get_class_weights`: for each `(class_name, class_label)` entry the
weight `(1 / n) * (total / n_classes)` where `n` is the number of samples
of that class.  Floats are idealised as exact rationals. -/
def getClassWeights (info : DatasetInfo) : List (Nat × ℚ) :=
  info.classLabels.map fun p =>
    (p.2, (1 / (countLabel info p.2 : ℚ)) * ((info.nImages : ℚ) / (info.nClasses : ℚ)))

/-! ### Class-name ordering (src/scripts/evaluate.py, src/train.py)

Python strings compare lexicographically; they are embedded as `List Char`
with the lexicographic linear order so that comparisons compute. -/

abbrev Name := List Char

/-- Python's `sorted` on names, embedded as insertion sort over the
lexicographic order (any correct comparison sort computes the same list). -/
def sortNames (l : List Name) : List Name := l.insertionSort (· ≤ ·)

/-- Modelled from the spec: the class-index dictionary built by the image
dataset loaders (`covid19.preprocessing.image_dataset_from_directory` /
`covid19.datasets`, not under `src/`): per the spec, the
class-name-to-index mapping is derived by sorting the class subdirectory
names alphabetically, each name mapped to its rank. -/
def classIndices (listing : List Name) : List (Name × Nat) :=
  let sorted := sortNames listing
  sorted.zip (List.range sorted.length)

/-- Embedding of `class_names = sorted(test_ds.class_indices.keys())`
(src/scripts/evaluate.py, line 54): the index of a name in this list is
its class index. -/
def classNamesEvaluate (listing : List Name) : List Name :=
  sortNames ((classIndices listing).map Prod.fst)

/-- Embedding of `target_names = [x for x in os.listdir(train_dir)]`
(src/train.py, line 86): the class-name list used by the data-stats plot,
in raw filesystem listing order. -/
def targetNamesTrainStats (listing : List Name) : List Name := listing

/-- The position a class name gets when `target_names` (raw listing order)
is used as an index-aligned list, as the data-stats bar plot of
src/train.py does. -/
def targetNameIndex (listing : List Name) (name : Name) : Option Nat :=
  (List.range listing.length).find? fun i => listing.getD i [] = name

/-! ### Directory preparation of the pretraining entry point
(src/scripts/pretrain.py, lines 87-97)

The filesystem is modelled as the list of existing directories, each a
path given by its segments. -/

abbrev FsPath := List String

structure FsState where
  dirs : List FsPath
  deriving Repr, DecidableEq

/-- Embedding of `Path.is_dir()`. -/
def isDir (fs : FsState) (p : FsPath) : Bool := decide (p ∈ fs.dirs)

/-- The nonempty proper ancestors of a path, shortest first. -/
def properAncestors (p : FsPath) : List FsPath :=
  (List.range (p.length - 1)).map fun i => p.take (i + 1)

/-- Embedding of `Path.mkdir(parents=...)` with the default `exist_ok=False`:
fails with `FileExistsError` when the target exists; with `parents=True`
creates all missing ancestors, otherwise fails with `FileNotFoundError`
when the parent is missing. -/
def mkdir (fs : FsState) (p : FsPath) (parents : Bool) : Except String FsState :=
  if isDir fs p then .error "FileExistsError"
  else if parents then
    .ok ⟨fs.dirs ++ (properAncestors p).filter (fun q => decide (q ∉ fs.dirs)) ++ [p]⟩
  else if p.length ≤ 1 ∨ isDir fs p.dropLast then
    .ok ⟨fs.dirs ++ [p]⟩
  else .error "FileNotFoundError"

/-- The path-preparation block of `pretrain.py`'s `main` (lines 87-97):
fail with `FileExistsError` when the output model directory exists,
otherwise `(model/'models').mkdir(parents=True)`,
`(model/'checkpoints').mkdir()`, `(model/'training').mkdir()`.
(The logs directory is not created here; TensorBoard creates it later.) -/
def pretrainPreparePaths (fs : FsState) (modelArg : FsPath) : Except String FsState :=
  if isDir fs modelArg then .error ("FileExistsError: already exists")
  else do
    let fs ← mkdir fs (modelArg ++ ["models"]) true
    let fs ← mkdir fs (modelArg ++ ["checkpoints"]) false
    mkdir fs (modelArg ++ ["training"]) false

/-- Embedding of `pretrain.py`'s `main` up to and including the call of
`compile_and_fit`: path preparation runs first; training is reached only
when it succeeds.  The result records the filesystem as of the start of
training and whether training was reached. -/
def pretrainMain (fs : FsState) (modelArg : FsPath) : FsState × Bool :=
  match pretrainPreparePaths fs modelArg with
  | .error _ => (fs, false)
  | .ok fs' => (fs', true)

/-- A real filesystem state: every nonempty proper prefix of an existing
directory exists (stated over the bounded range of prefix lengths, so it
is decidable for concrete states). -/
@[reducible]
def fsWellFormed (fs : FsState) : Prop :=
  ∀ p ∈ fs.dirs, ∀ i ∈ List.range p.length, 0 < i → p.take i ∈ fs.dirs

/-! ### `plot_learning_curves` (src/covid19/metrics/training.py)

`History` objects carry `epoch` (list of epoch numbers) and `history` (a
dict from metric name to the list of per-epoch values, in insertion
order).  Metric names are embedded as `List Char` so that the
`startswith('val_')` test and the `'val_' + metric` concatenation compute.
The function mutates the lists held by `history.history` in place via the
aliased `train_values`/`val_values` names; the embedding threads the dict
state explicitly and returns the final state together with the raised
exception, if any. -/

abbrev MetricDict := List (Name × List ℚ)

structure History where
  epoch : List Nat
  history : MetricDict
  deriving Repr, DecidableEq

/-- Dictionary lookup `d[k]` (`none` models `KeyError`). -/
def lookupMetric (d : MetricDict) (k : Name) : Option (List ℚ) :=
  (d.find? fun p => p.1 = k).map Prod.snd

/-- In-place `d[k] += vs` on the list object held at key `k`. -/
def extendMetric (d : MetricDict) (k : Name) (vs : List ℚ) : MetricDict :=
  d.map fun p => if p.1 = k then (p.1, p.2 ++ vs) else p

/-- The characters of `"val_"`. -/
def valTag : Name := ['v', 'a', 'l', '_']

/-- The key `'val_' + metric`. -/
def valKey (k : Name) : Name := valTag ++ k

/-- The test `metric.startswith('val_')`. -/
def startsWithVal (k : Name) : Bool := valTag.isPrefixOf k

/-- One iteration of the loop of `plot_learning_curves` for the key
`metric`, mirroring the statement order of lines 18-26: skip `val_` keys;
read `history.history[metric]` and `history.history[val_metric]` (the
latter may raise `KeyError`); when `history_ft` is given, extend the train
list with `history_ft.history[metric]` and then the validation list with
`history_ft.history[val_metric]` (each lookup may raise `KeyError`, the
second one after the train list was already extended). -/
def processMetricKey (ft : Option History) (st : MetricDict) (k : Name) :
    MetricDict × Option String :=
  if startsWithVal k then (st, none)
  else
    match lookupMetric st (valKey k) with
    | none => (st, some "KeyError")
    | some _ =>
      match ft with
      | none => (st, none)
      | some f =>
        match lookupMetric f.history k with
        | none => (st, some "KeyError")
        | some ftTrain =>
          let st1 := extendMetric st k ftTrain
          match lookupMetric f.history (valKey k) with
          | none => (st1, some "KeyError")
          | some ftVal => (extendMetric st1 (valKey k) ftVal, none)

/-- The loop `for metric in history.history.keys()`; a raised exception
aborts the loop, keeping the mutations already performed. -/
def processMetricKeys (ft : Option History) : MetricDict → List Name →
    MetricDict × Option String
  | st, [] => (st, none)
  | st, k :: ks =>
    match processMetricKey ft st k with
    | (st1, some e) => (st1, some e)
    | (st1, none) => processMetricKeys ft st1 ks

/-- Embedding of `plot_learning_curves(history, history_ft=None, save_path=None)`
(lines 5-38): `Path(save_path)` raises `TypeError` when `save_path` is
`None`; `history.epoch[-1]` raises `IndexError` when `epoch` is empty;
then the loop over the metric keys runs.  Returns the final state of
`history` and the raised exception, if any.  Plotting and saving the
figures have no effect on the history and are not modelled. -/
def plotLearningCurves (history : History) (historyFt : Option History)
    (savePath : Option String) : History × Option String :=
  if savePath.isNone then (history, some "TypeError")
  else if history.epoch.isEmpty then (history, some "IndexError")
  else
    let r := processMetricKeys historyFt history.history (history.history.map Prod.fst)
    (⟨history.epoch, r.1⟩, r.2)

/-- The fine-tuning values that one run of the
`plot_learning_curves` loop over the key list `ks` appends to the list
held at dictionary key `key`: an iteration for a non-`val_` key `k`
appends `ft[key]` to the entries at `k` and at `val_ + k`, and nothing
else. -/
def ftContrib (f : MetricDict) : List Name → Name → List ℚ
  | [], _ => []
  | k :: ks, key =>
    (if startsWithVal k = false ∧ (key = k ∨ key = valKey k)
      then (lookupMetric f key).getD []
      else []) ++ ftContrib f ks key

/-- The 3-class toy dataset of the specification's end-to-end scenario:
10 covid-19 samples (label 0), 100 normal (label 1), 50 pneumonia
(label 2). -/
def exampleDatasetInfo : DatasetInfo :=
  { labels := List.replicate 10 0 ++ List.replicate 100 1 ++ List.replicate 50 2
    classLabels := [("covid-19", 0), ("normal", 1), ("pneumonia", 2)]
    nImages := 160
    nClasses := 3 }

/-! ## Helper lemmas -/

/-- Elements of an all-`true` flag list read back as `true` in range. -/
theorem getD_map_true {α : Type} (l : List α) (i : Nat) (h : i < l.length) :
    ((l.map fun _ => true).getD i false) = true := by
  induction l generalizing i with
  | nil => simp at h
  | cons a l ih =>
    cases i with
    | zero => rfl
    | succ i => exact ih i (by simpa using h)

/-- Function `freezeBelow` with cutoff `0` leaves the flag list unchanged. -/
theorem freezeBelow_zero (l : List Bool) : freezeBelow 0 l = l := by
  cases l <;> rfl

/-- After unfreezing everything and freezing the first `c` layers, layer
`i` is trainable exactly when `c ≤ i`. -/
theorem freezeBelow_map_true_getD {α : Type} (c : Nat) (l : List α) (i : Nat)
    (h : i < l.length) :
    (freezeBelow c (l.map fun _ => true)).getD i false = decide (c ≤ i) := by
  induction l generalizing c i with
  | nil => simp at h
  | cons a l ih =>
    cases c with
    | zero =>
      rw [freezeBelow_zero, getD_map_true (a :: l) i h]
      exact (decide_eq_true (Nat.zero_le i)).symm
    | succ c =>
      cases i with
      | zero => simp [freezeBelow]
      | succ i =>
        simp only [List.map_cons, freezeBelow, List.getD_cons_succ]
        rw [ih c i (by simpa using h)]
        simp [Nat.succ_le_succ_iff]

/-- Sum of a list mapped to a constant value. -/
theorem sum_map_eq_length_mul {α : Type} (l : List α) (f : α → ℚ) (a : ℚ)
    (h : ∀ x ∈ l, f x = a) : (l.map f).sum = l.length * a := by
  induction l with
  | nil => simp
  | cons x l ih =>
    rw [List.map_cons, List.sum_cons, h x (List.mem_cons_self x l),
      ih fun y hy => h y (List.mem_cons_of_mem _ hy)]
    simp only [List.length_cons]
    push_cast
    ring

/-- The shortcut branch of `_COVIDNetBlock` maps any rank-4 input with
positive spatial dimensions to the same spatial dimensions with the
block's channel width. -/
theorem branchConvShape_eval (channels N h w c : Nat) (hh : 1 ≤ h) (hw : 1 ≤ w) :
    branchConvShape channels [N, h, w, c] = some [N, h, w, channels] := by
  simp only [branchConvShape, conv2dShape, batchNormShape, reluShape, validPadOut]
  rw [if_neg (by simp), if_pos ⟨hh, hw⟩]
  simp only [Option.bind_eq_bind, Option.some_bind]
  have h1 : (h - 1) / 1 + 1 = h := by omega
  have h2 : (w - 1) / 1 + 1 = w := by omega
  rw [h1, h2]

/-- The PEPX/add loop of `_COVIDNetBlock` is stationary once the running
shape equals the shortcut branch output shape. -/
theorem covidnetBlockLoop_fixed (channels N h w : Nat) (n : Nat) :
    covidnetBlockLoop channels [N, h, w, channels] n [N, h, w, channels] =
      some [N, h, w, channels] := by
  induction n with
  | zero => rfl
  | succ n ih =>
    simp only [covidnetBlockLoop, pepxShape, addShape, Option.bind_eq_bind,
      Option.some_bind, if_pos rfl]
    exact ih

/-- Evaluation of `_COVIDNetBlock(channels, n_pepx)` on any rank-4 input
with positive spatial dimensions and at least one PEPX unit: spatial
dimensions are halved (rounding up) and the channel count becomes the
block width, whatever the input channel count. -/
theorem covidnetBlockShape_eval (channels nPepx N h w c : Nat)
    (hn : 1 ≤ nPepx) (hh : 1 ≤ h) (hw : 1 ≤ w) :
    covidnetBlockShape channels nPepx [N, h, w, c] =
      some [N, samePadOut 2 h, samePadOut 2 w, channels] := by
  obtain ⟨n, rfl⟩ : ∃ n, nPepx = n + 1 := ⟨nPepx - 1, by omega⟩
  simp only [covidnetBlockShape, branchConvShape_eval channels N h w c hh hw,
    Option.bind_eq_bind, Option.some_bind]
  simp only [covidnetBlockLoop, pepxShape, addShape, if_pos rfl, if_true,
    Option.bind_eq_bind, Option.some_bind]
  rw [covidnetBlockLoop_fixed]
  rfl

/-! ## Claim C1 -/

/-- Claim C1 (code behavior at the relevant inputs): `ResNet50.call`
computes the backbone's `training` argument as
`False if self._from_scratch else training` with
`_from_scratch = weights is None`.  Consequently, for a model constructed
from pretrained weights (`weights='imagenet'`) the caller's
training/inference flag is passed through to the backbone unchanged — in
particular `training=True` reaches the backbone — while for a model
constructed from scratch (`weights=None`) the backbone is forced into
inference mode.  This contradicts the claim (and the code's own comment),
which require the backbone to be forced into inference mode exactly when
the model was constructed from pretrained weights. -/
theorem resnet50_backbone_training_flag_inverted :
    (∀ (n : Nat) (t : Option Bool),
      resnet50BackboneTrainingArg (resnet50Init (some "imagenet") n) t = t) ∧
    (∀ (n : Nat) (t : Option Bool),
      resnet50BackboneTrainingArg (resnet50Init none n) t = some false) ∧
    resnet50BackboneTrainingArg (resnet50Init (some "imagenet") 2) (some true)
      = some true :=
  ⟨fun _ _ => rfl, fun _ _ => rfl, rfl⟩

/-! ## Claim C3 -/

/-- Claim C3: `ResNet50.fine_tune` raises `ValueError` — before touching
any trainable flag — if and only if `fine_tune_at` exceeds the number of
layers of the feature extractor; for any index at most that count it
proceeds (returns a model, to be trained by `compile_and_fit`) without
raising. -/
theorem resnet50_fine_tune_rejects_iff_too_big (m : ResNet50Model) (t : Int) :
    ((m.feLayerTrainable.length : Int) < t →
      fineTune m t =
        .error "ValueError: Too big fine_tune_at, more than the number of layers") ∧
    (t ≤ (m.feLayerTrainable.length : Int) → (fineTune m t).isOk = true) := by
  constructor
  · intro h
    simp [fineTune, h]
  · intro h
    simp [fineTune, Int.not_lt.mpr h, Except.isOk, Except.toBool]

/-- Witness for C3 at a concrete model with 2 backbone layers: index 3 is
rejected, index 1 is accepted. -/
theorem resnet50_fine_tune_rejects_iff_too_big_witness :
    fineTune (resnet50Init none 2) 3 =
      .error "ValueError: Too big fine_tune_at, more than the number of layers" ∧
    (fineTune (resnet50Init none 2) 1).isOk = true :=
  ⟨(resnet50_fine_tune_rejects_iff_too_big (resnet50Init none 2) 3).1 (by decide),
   (resnet50_fine_tune_rejects_iff_too_big (resnet50Init none 2) 1).2 (by decide)⟩

/-! ## Claim C4 -/

/-- Claim C4: after `fit_linear_classifier` no backbone layer is
effectively trainable while the classifier head stays trainable; after
`fine_tune` with a valid split index `t` (`0 ≤ t ≤ layer count`), a
backbone layer at index `i` is effectively trainable exactly when
`t ≤ i`, and the classifier head stays trainable. -/
theorem resnet50_freeze_unfreeze_invariant (m : ResNet50Model) (t : Int)
    (hhead : m.classifierTrainable = true)
    (ht0 : 0 ≤ t) (htlen : t ≤ (m.feLayerTrainable.length : Int)) :
    (∀ i, feEffectiveTrainable (fitLinearClassifier m) i = false) ∧
    (fitLinearClassifier m).classifierTrainable = true ∧
    ∃ m', fineTune m t = .ok m' ∧
      (∀ i < m.feLayerTrainable.length,
        (feEffectiveTrainable m' i = true ↔ t ≤ (i : Int))) ∧
      m'.classifierTrainable = true := by
  have hne : ¬ ((m.feLayerTrainable.length : Int) < t) := Int.not_lt.mpr htlen
  have hcut : pySliceStop t ((m.feLayerTrainable.map fun _ => true).length) = t.toNat := by
    simp only [pySliceStop, List.length_map]
    rw [if_neg (by omega)]
    omega
  refine ⟨fun i => ?_, ?_, ?_⟩
  · simp [feEffectiveTrainable, fitLinearClassifier, setFeTrainable]
  · simpa [fitLinearClassifier, setFeTrainable] using hhead
  · refine ⟨⟨m.fromScratch, true,
        freezeBelow (pySliceStop t ((m.feLayerTrainable.map fun _ => true).length))
          (m.feLayerTrainable.map fun _ => true),
        m.classifierTrainable⟩, ?_, fun i hi => ?_, hhead⟩
    · simp [fineTune, hne, setFeTrainable]
    · simp only [feEffectiveTrainable, hcut, Bool.true_and]
      rw [freezeBelow_map_true_getD t.toNat m.feLayerTrainable i hi]
      simp [Int.toNat_le]

/-- Witness for C4 at a fresh 3-layer model and split index 1. -/
theorem resnet50_freeze_unfreeze_invariant_witness :
    (∀ i, feEffectiveTrainable (fitLinearClassifier (resnet50Init none 3)) i = false) ∧
    (fitLinearClassifier (resnet50Init none 3)).classifierTrainable = true ∧
    ∃ m', fineTune (resnet50Init none 3) 1 = .ok m' ∧
      (∀ i < (resnet50Init none 3).feLayerTrainable.length,
        (feEffectiveTrainable m' i = true ↔ (1 : Int) ≤ (i : Int))) ∧
      m'.classifierTrainable = true :=
  resnet50_freeze_unfreeze_invariant (resnet50Init none 3) 1 rfl (by decide) (by decide)

/-! ## Claim C8 -/

/-- Claim C8: constructing `COVIDNet` with any non-`None` `weights`
argument — including the default `'imagenet'` — raises
`NotImplementedError` (the `raise` on line 61 precedes the construction of
every layer, so the error carries no model); construction succeeds exactly
when `weights` is `None`. -/
theorem covidnet_preset_weights_not_implemented :
    (∀ (α : Type) (name : α) (w : String),
      covidnetInit name (some w) = .error "NotImplementedError") ∧
    (∀ (α : Type) (name : α),
      covidnetInit name covidnetDefaultWeights = .error "NotImplementedError") ∧
    (∀ (α : Type) (name : α), ∃ mo, covidnetInit name none = .ok mo) :=
  ⟨fun _ _ _ => rfl, fun _ _ => rfl, fun _ _ => ⟨_, rfl⟩⟩

/-- Softmax of a nonempty list of logits sums to 1. -/
theorem sum_softmax (xs : List ℝ) (h : xs ≠ []) : (softmax xs).sum = 1 := by
  have hpos : 0 < (xs.map Real.exp).sum := by
    refine List.sum_pos _ (fun x hx => ?_) (by simpa using h)
    obtain ⟨y, _, rfl⟩ := List.mem_map.mp hx
    exact Real.exp_pos y
  have hmap : softmax xs =
      (xs.map Real.exp).map fun b => b * ((xs.map Real.exp).sum)⁻¹ := by
    simp [softmax, List.map_map, div_eq_mul_inv, Function.comp]
  rw [hmap, List.sum_map_mul_right]
  simp only [show (fun b : ℝ => b) = id from rfl, List.map_id]
  exact mul_inv_cancel₀ (ne_of_gt hpos)

/-! ## Claim C9 -/

/-- Claim C9: for every input batch `[N, h, w, c]` with positive spatial
dimensions — whatever its channel count `c` — the output of
`_COVIDNetBlock(channels, n_pepx)` (with at least one PEPX unit, as in all
four instantiations 3/4/5/3) has channel count `channels`: the shortcut
convolution adapts the input channel count, each PEPX output is summed
with the shortcut output, and the final stride-2 `same` pooling halves the
spatial dimensions (rounding up) while preserving the channel count. -/
theorem covidnet_block_adapts_channels (channels nPepx N h w c : Nat)
    (hn : 1 ≤ nPepx) (hh : 1 ≤ h) (hw : 1 ≤ w) :
    covidnetBlockShape channels nPepx [N, h, w, c] =
      some [N, samePadOut 2 h, samePadOut 2 w, channels] :=
  covidnetBlockShape_eval channels nPepx N h w c hn hh hw

/-- Witness for C9: the first block of the network (width 256, three PEPX
units) applied to the stem output shape with 64 channels; the same block
also accepts a 3-channel input, adapting it to 256 channels. -/
theorem covidnet_block_adapts_channels_witness :
    covidnetBlockShape 256 3 [1, 112, 112, 64] = some [1, 56, 56, 256] ∧
    covidnetBlockShape 256 3 [1, 112, 112, 3] = some [1, 56, 56, 256] :=
  ⟨covidnet_block_adapts_channels 256 3 1 112 112 64 (by decide) (by decide) (by decide),
   covidnet_block_adapts_channels 256 3 1 112 112 3 (by decide) (by decide) (by decide)⟩

/-! ## Claim C2 -/

/-- Claim C2 as stated is false on the code: the `COVIDNet` constructor
has no class-count parameter (its signature is
`__init__(self, name='covidnet', weights='imagenet')`), so the call
`COVIDNet(n_classes, weights=None)` in `src/scripts/pretrain.py` passes
the requested class count into `name`, and the classifier head is the
fixed `Dense(3, activation='softmax')` (line 82).  Concretely, a model
requested with 2 classes is built with 3 output units, and the forward
pass on a batch of shape `(1, 224, 224, 3)` produces shape `(1, 3)`, not
`(1, 2)`. -/
theorem covidnet_configured_class_count_ignored :
    (getModelCovidnet 2).map COVIDNetModel.outputUnits = .ok 3 ∧
    covidnetForwardShape [1, 224, 224, 3] = some [1, 3] ∧
    covidnetForwardShape [1, 224, 224, 3] ≠ some [1, 2] :=
  ⟨rfl, by decide, by decide⟩

/-- Claim C2, amended: for every batch size `N`, the forward pass of
`COVIDNet` on an input of shape `(N, 224, 224, 3)` produces output shape
`(N, 3)` — 3 being the fixed class count of the `Dense(3)` head, not a
configurable parameter — and the final softmax layer makes every output
row a probability distribution: for any weights `W` (3 rows) and biases
`b` (3 entries) of the head and any feature vector `x`, the output row
sums to 1. -/
theorem covidnet_output_shape_and_row_sums :
    (∀ N : Nat, covidnetForwardShape [N, 224, 224, 3] = some [N, 3]) ∧
    (∀ (W : List (List ℝ)) (b x : List ℝ), W.length = 3 → b.length = 3 →
      (denseSoftmax W b x).sum = 1) := by
  constructor
  · intro N
    have h1 : reshapeToImage [N, 224, 224, 3] = some [N, 224, 224, 3] := by
      have hp : List.prod [N, 224, 224, 3] = N * 150528 := by
        simp [List.prod]
      simp [reshapeToImage, hp, Nat.mul_mod_left, Nat.mul_div_cancel N (by norm_num : 0 < 150528)]
    have h2 : covidnetStemShape [N, 224, 224, 3] = some [N, 112, 112, 64] := by
      simp [covidnetStemShape, conv2dShape, batchNormShape, reluShape, samePadOut]
    have h3 := covidnetBlockShape_eval 256 3 N 112 112 64 (by decide) (by decide) (by decide)
    have h4 := covidnetBlockShape_eval 512 4 N 56 56 256 (by decide) (by decide) (by decide)
    have h5 := covidnetBlockShape_eval 1024 5 N 28 28 512 (by decide) (by decide) (by decide)
    have h6 := covidnetBlockShape_eval 2048 3 N 14 14 1024 (by decide) (by decide) (by decide)
    simp only [samePadOut] at h3 h4 h5 h6
    norm_num at h3 h4 h5 h6
    simp [covidnetForwardShape, h1, rescalingShape, h2, h3, h4, h5, h6,
      flattenShape, denseShape]
  · intro W b x hW hb
    apply sum_softmax
    have : (List.zipWith (fun w bi => dotList w x + bi) W b).length = 3 := by
      rw [List.length_zipWith, hW, hb]
      simp
    intro hnil
    rw [hnil] at this
    simp at this

/-- Witness for C2 (amended) at batch size 5 and concrete head
parameters. -/
theorem covidnet_output_shape_and_row_sums_witness :
    covidnetForwardShape [5, 224, 224, 3] = some [5, 3] ∧
    (denseSoftmax [[1], [0], [0]] [0, 0, 0] [0]).sum = 1 :=
  ⟨covidnet_output_shape_and_row_sums.1 5,
   covidnet_output_shape_and_row_sums.2 [[1], [0], [0]] [0, 0, 0] [0] rfl rfl⟩

/-! ## Claim C5 -/

/-- Claim C5: `get_class_weights` assigns class `i` the weight
`(1 / c_i) * (T / k)` (`c_i` its sample count, `T` the total image count,
`k` the class count), and consequently `Σ_i weight_i * c_i = T`
independently of `k` and of the class distribution; on the toy dataset
with counts 10/100/50 the weights are `160/30`, `160/300`, `160/150`. -/
theorem class_weights_inverse_frequency (info : DatasetInfo)
    (hk : info.nClasses = info.classLabels.length)
    (hk1 : 1 ≤ info.nClasses)
    (hc : ∀ p ∈ info.classLabels, 1 ≤ countLabel info p.2) :
    getClassWeights info =
      (info.classLabels.map fun p =>
        (p.2, (1 / (countLabel info p.2 : ℚ)) *
          ((info.nImages : ℚ) / (info.nClasses : ℚ)))) ∧
    ((getClassWeights info).map fun q => q.2 * (countLabel info q.1 : ℚ)).sum =
      (info.nImages : ℚ) ∧
    getClassWeights exampleDatasetInfo =
      [(0, 160 / 30), (1, 160 / 300), (2, 160 / 150)] := by
  refine ⟨rfl, ?_, ?_⟩
  · have hterm : ∀ p ∈ info.classLabels,
        ((fun q : Nat × ℚ => q.2 * (countLabel info q.1 : ℚ)) ∘
          (fun p : String × Nat =>
            (p.2, (1 / (countLabel info p.2 : ℚ)) *
              ((info.nImages : ℚ) / (info.nClasses : ℚ))))) p =
          (info.nImages : ℚ) / (info.nClasses : ℚ) := by
      intro p hp
      have hne : (countLabel info p.2 : ℚ) ≠ 0 := by
        have := hc p hp
        positivity
      field_simp
      ring
    rw [getClassWeights, List.map_map,
      sum_map_eq_length_mul _ _ _ hterm, ← hk]
    have hkne : (info.nClasses : ℚ) ≠ 0 := by positivity
    field_simp
  · have h0 : countLabel exampleDatasetInfo 0 = 10 := rfl
    have h1 : countLabel exampleDatasetInfo 1 = 100 := rfl
    have h2 : countLabel exampleDatasetInfo 2 = 50 := rfl
    have hcl : exampleDatasetInfo.classLabels =
        [("covid-19", 0), ("normal", 1), ("pneumonia", 2)] := rfl
    have hni : exampleDatasetInfo.nImages = 160 := rfl
    have hnc : exampleDatasetInfo.nClasses = 3 := rfl
    show (exampleDatasetInfo.classLabels.map fun p =>
        (p.2, (1 / (countLabel exampleDatasetInfo p.2 : ℚ)) *
          ((exampleDatasetInfo.nImages : ℚ) / (exampleDatasetInfo.nClasses : ℚ)))) = _
    rw [hcl]
    simp only [List.map_cons, List.map_nil, h0, h1, h2, hni, hnc]
    norm_num

/-- Witness for C5 at the toy dataset: `3 = 3` classes, every class
nonempty, and the weighted counts sum to the total `160`. -/
theorem class_weights_inverse_frequency_witness :
    ((getClassWeights exampleDatasetInfo).map
      fun q => q.2 * (countLabel exampleDatasetInfo q.1 : ℚ)).sum =
      (exampleDatasetInfo.nImages : ℚ) :=
  (class_weights_inverse_frequency exampleDatasetInfo rfl (by decide)
    (by decide)).2.1

/-! ## Claim C6 -/

/-- The `sorted` output depends only on the multiset of names: two listings
that are permutations of each other sort to the same list. -/
theorem sortNames_eq_of_perm (l₁ l₂ : List Name) (h : l₁.Perm l₂) :
    sortNames l₁ = sortNames l₂ :=
  List.eq_of_perm_of_sorted
    ((List.perm_insertionSort _ l₁).trans (h.trans (List.perm_insertionSort _ l₂).symm))
    (List.sorted_insertionSort _ l₁) (List.sorted_insertionSort _ l₂)

/-- Claim C6, amended to the mappings that are actually derived by
sorting: the class-name-to-index mapping of the dataset loaders
(`classIndices`) and the index-aligned class-name list of the evaluation
driver (`classNamesEvaluate`, from `sorted(test_ds.class_indices.keys())`)
are identical for any two duplicate-free directory scans sharing the same
set of class subdirectory names, whatever order the filesystem lists them
in.  (The raw-listing-order `target_names` of `src/train.py` line 86 does
not have this property; see the counterexample.) -/
theorem class_index_mapping_listing_order_invariant (l₁ l₂ : List Name)
    (h₁ : l₁.Nodup) (h₂ : l₂.Nodup) (hset : ∀ s, s ∈ l₁ ↔ s ∈ l₂) :
    classIndices l₁ = classIndices l₂ ∧
    classNamesEvaluate l₁ = classNamesEvaluate l₂ := by
  have hperm : l₁.Perm l₂ := (List.perm_ext_iff_of_nodup h₁ h₂).mpr hset
  have hsort : sortNames l₁ = sortNames l₂ := sortNames_eq_of_perm l₁ l₂ hperm
  have hci : classIndices l₁ = classIndices l₂ := by
    simp [classIndices, hsort]
  exact ⟨hci, by simp [classNamesEvaluate, hci]⟩

/-- Witness for C6 (amended) on two scans of the same three class
directories in different listing orders. -/
theorem class_index_mapping_listing_order_invariant_witness :
    classIndices
        ["normal".toList, "covid-19".toList, "pneumonia".toList] =
      classIndices
        ["covid-19".toList, "pneumonia".toList, "normal".toList] ∧
    classNamesEvaluate
        ["normal".toList, "covid-19".toList, "pneumonia".toList] =
      classNamesEvaluate
        ["covid-19".toList, "pneumonia".toList, "normal".toList] :=
  class_index_mapping_listing_order_invariant
    ["normal".toList, "covid-19".toList, "pneumonia".toList]
    ["covid-19".toList, "pneumonia".toList, "normal".toList]
    (by decide) (by decide) (fun _ => List.Perm.mem_iff (by decide))

/-- Claim C6, counterexample to the claim as stated: the `target_names`
list that `src/train.py` (line 86) derives from a directory scan keeps the
raw filesystem listing order, so two scans of the same class set in
different listing orders assign the name `covid-19` different positions
(1 versus 0), and the derived name lists differ. -/
theorem target_names_listing_order_counterexample :
    List.Perm ["normal".toList, "covid-19".toList, "pneumonia".toList]
      ["covid-19".toList, "normal".toList, "pneumonia".toList] ∧
    targetNameIndex
        (targetNamesTrainStats ["normal".toList, "covid-19".toList, "pneumonia".toList])
        "covid-19".toList = some 1 ∧
    targetNameIndex
        (targetNamesTrainStats ["covid-19".toList, "normal".toList, "pneumonia".toList])
        "covid-19".toList = some 0 ∧
    targetNamesTrainStats ["normal".toList, "covid-19".toList, "pneumonia".toList] ≠
      targetNamesTrainStats ["covid-19".toList, "normal".toList, "pneumonia".toList] := by
  refine ⟨by decide, by decide, by decide, by decide⟩

/-! ## Claim C7 -/

/-- Every entry of `properAncestors p` is strictly shorter than `p` (and
nonempty). -/
theorem properAncestors_length_lt (p q : FsPath) (h : q ∈ properAncestors p) :
    q.length < p.length ∧ 0 < q.length := by
  simp only [properAncestors, List.mem_map, List.mem_range] at h
  obtain ⟨i, hi, rfl⟩ := h
  simp only [List.length_take]
  omega

/-- In a well-formed filesystem, a child directory `M ++ [s]` can exist
only if `M` exists. -/
theorem parent_mem_of_child_mem (fs : FsState) (hwf : fsWellFormed fs)
    (M : FsPath) (hne : M ≠ []) (s : String) (h : (M ++ [s]) ∈ fs.dirs) :
    M ∈ fs.dirs := by
  have hMpos : 0 < M.length := List.length_pos.mpr hne
  have ht := hwf _ h M.length (by simp [List.mem_range]) hMpos
  rwa [List.take_left] at ht

/-- Claim C7: the pretraining entry point fails immediately — leaving the
filesystem untouched and reaching no training — exactly when the output
model directory already exists; otherwise the path preparation succeeds
and the subdirectories `models/`, `checkpoints/` and `training/` of the
model directory all exist in the filesystem state at which training
starts. -/
theorem pretrain_prepare_paths_spec (fs : FsState) (M : FsPath)
    (hwf : fsWellFormed fs) (hne : M ≠ []) :
    (isDir fs M = true → pretrainMain fs M = (fs, false)) ∧
    (isDir fs M = false →
      ∃ fs', pretrainPreparePaths fs M = .ok fs' ∧
        pretrainMain fs M = (fs', true) ∧
        M ++ ["models"] ∈ fs'.dirs ∧
        M ++ ["checkpoints"] ∈ fs'.dirs ∧
        M ++ ["training"] ∈ fs'.dirs) := by
  constructor
  · intro h
    simp [pretrainMain, pretrainPreparePaths, h]
  · intro h
    have hM : M ∉ fs.dirs := by simpa [isDir] using h
    have hMpos : 0 < M.length := List.length_pos.mpr hne
    have hchild : ∀ s : String, (M ++ [s]) ∉ fs.dirs := fun s hmem =>
      hM (parent_mem_of_child_mem fs hwf M hne s hmem)
    -- the state after `(M/'models').mkdir(parents=True)`
    set anc := (properAncestors (M ++ ["models"])).filter
      (fun q => decide (q ∉ fs.dirs)) with hanc
    set d1 := fs.dirs ++ anc ++ [M ++ ["models"]] with hd1
    have h1 : mkdir fs (M ++ ["models"]) true = .ok ⟨d1⟩ := by
      simp only [mkdir, isDir, hd1, hanc]
      rw [if_neg (by simpa using hchild "models")]
      simp
    have hManc : M ∈ anc := by
      rw [hanc]
      refine List.mem_filter.mpr ⟨?_, by simpa using hM⟩
      simp only [properAncestors, List.length_append, List.length_singleton,
        List.mem_map, List.mem_range]
      exact ⟨M.length - 1, by omega, by
        have : M.length - 1 + 1 = M.length := by omega
        rw [this, List.take_left]⟩
    have hM1 : M ∈ d1 := by
      rw [hd1]
      simp [hManc]
    have hshort : ∀ q ∈ anc, q.length < (M ++ ["models"]).length := by
      intro q hq
      exact (properAncestors_length_lt _ q (List.mem_filter.mp hq).1).1
    have hlen : ∀ s : String, (M ++ [s]).length = M.length + 1 := by
      intro s
      simp
    -- a fresh sibling `M ++ [s]` (s ≠ "models") is not in `d1`
    have hnotin1 : ∀ s : String, s ≠ "models" → (M ++ [s]) ∉ d1 := by
      intro s hs hmem
      rw [hd1] at hmem
      rcases List.mem_append.mp hmem with hmem | hmem
      · rcases List.mem_append.mp hmem with hmem | hmem
        · exact hchild s hmem
        · have := hshort _ hmem
          rw [hlen s] at this
          simp [List.length_append] at this
      · simp at hmem
        exact hs hmem
    have hdrop : ∀ s : String, (M ++ [s]).dropLast = M := fun s =>
      List.dropLast_concat ..
    -- the state after `(M/'checkpoints').mkdir()`
    set d2 := d1 ++ [M ++ ["checkpoints"]] with hd2
    have h2 : mkdir ⟨d1⟩ (M ++ ["checkpoints"]) false = .ok ⟨d2⟩ := by
      simp only [mkdir, isDir, hd2]
      rw [if_neg (by simpa using hnotin1 "checkpoints" (by decide)),
        if_pos (Or.inr (by
          rw [hdrop "checkpoints"]
          exact decide_eq_true hM1))]
      simp
    -- the state after `(M/'training').mkdir()`
    set d3 := d2 ++ [M ++ ["training"]] with hd3
    have h3 : mkdir ⟨d2⟩ (M ++ ["training"]) false = .ok ⟨d3⟩ := by
      have hnotin2 : (M ++ ["training"]) ∉ d2 := by
        rw [hd2]
        intro hmem
        rcases List.mem_append.mp hmem with hmem | hmem
        · exact hnotin1 "training" (by decide) hmem
        · simp at hmem
      simp only [mkdir, isDir, hd3]
      rw [if_neg (by simpa using hnotin2),
        if_pos (Or.inr (by
          simp only [hdrop "training"]
          rw [hd2]
          exact decide_eq_true (List.mem_append.mpr (Or.inl hM1))))]
      simp
    have hprep : pretrainPreparePaths fs M = .ok ⟨d3⟩ := by
      rw [pretrainPreparePaths, if_neg (by simp [h])]
      rw [show (do
          let fs ← mkdir fs (M ++ ["models"]) true
          let fs ← mkdir fs (M ++ ["checkpoints"]) false
          mkdir fs (M ++ ["training"]) false :
            Except String FsState) =
          ((mkdir fs (M ++ ["models"]) true).bind fun fs1 =>
            (mkdir fs1 (M ++ ["checkpoints"]) false).bind fun fs2 =>
              mkdir fs2 (M ++ ["training"]) false) from rfl]
      rw [h1]
      rw [show ((Except.ok ⟨d1⟩ : Except String FsState).bind fun fs1 =>
          (mkdir fs1 (M ++ ["checkpoints"]) false).bind fun fs2 =>
            mkdir fs2 (M ++ ["training"]) false) =
          ((mkdir ⟨d1⟩ (M ++ ["checkpoints"]) false).bind fun fs2 =>
            mkdir fs2 (M ++ ["training"]) false) from rfl]
      rw [h2]
      rw [show ((Except.ok ⟨d2⟩ : Except String FsState).bind fun fs2 =>
          mkdir fs2 (M ++ ["training"]) false) =
          mkdir ⟨d2⟩ (M ++ ["training"]) false from rfl]
      exact h3
    refine ⟨⟨d3⟩, hprep, by simp [pretrainMain, hprep], ?_, ?_, ?_⟩
    · rw [hd3, hd2, hd1]
      simp
    · rw [hd3, hd2]
      simp
    · rw [hd3]
      simp

/-- Witness for C7: a filesystem holding only `data/`; preparing the
fresh directory `out/` succeeds and creates the three subdirectories, and
preparing the existing `data/` fails without touching the filesystem. -/
theorem pretrain_prepare_paths_spec_witness :
    (∃ fs', pretrainPreparePaths ⟨[["data"]]⟩ ["out"] = .ok fs' ∧
      pretrainMain ⟨[["data"]]⟩ ["out"] = (fs', true) ∧
      ["out", "models"] ∈ fs'.dirs ∧
      ["out", "checkpoints"] ∈ fs'.dirs ∧
      ["out", "training"] ∈ fs'.dirs) ∧
    pretrainMain ⟨[["data"]]⟩ ["data"] = (⟨[["data"]]⟩, false) :=
  ⟨(pretrain_prepare_paths_spec ⟨[["data"]]⟩ ["out"] (by decide) (by decide)).2
      (by decide),
   (pretrain_prepare_paths_spec ⟨[["data"]]⟩ ["data"] (by decide) (by decide)).1
      (by decide)⟩

/-! ## Claim C10 -/

/-- Lookup in a cons dictionary. -/
theorem lookupMetric_cons (a : Name × List ℚ) (d : MetricDict) (k : Name) :
    lookupMetric (a :: d) k = if a.1 = k then some a.2 else lookupMetric d k := by
  unfold lookupMetric
  rw [List.find?_cons]
  by_cases h : a.1 = k
  · simp [h]
  · simp [h]

/-- Lookup after an in-place extension: the held list gains the suffix at
the extended key and is unchanged elsewhere; key presence never changes. -/
theorem lookupMetric_extendMetric (d : MetricDict) (k : Name) (vs : List ℚ)
    (k' : Name) :
    lookupMetric (extendMetric d k vs) k' =
      (lookupMetric d k').map fun v => if k' = k then v ++ vs else v := by
  induction d with
  | nil => simp [lookupMetric, extendMetric]
  | cons a d ih =>
    rcases a with ⟨ak, av⟩
    simp only [extendMetric] at ih ⊢
    rw [List.map_cons]
    by_cases hk : ak = k
    · rw [if_pos hk]
      by_cases hk' : ak = k'
      · rw [lookupMetric_cons ⟨ak, av ++ vs⟩, lookupMetric_cons ⟨ak, av⟩,
          if_pos hk', if_pos hk']
        have : k' = k := hk' ▸ hk
        simp [this]
      · rw [lookupMetric_cons ⟨ak, av ++ vs⟩, lookupMetric_cons ⟨ak, av⟩,
          if_neg hk', if_neg hk']
        exact ih
    · rw [if_neg hk]
      by_cases hk' : ak = k'
      · rw [lookupMetric_cons ⟨ak, av⟩, lookupMetric_cons ⟨ak, av⟩,
          if_pos hk', if_pos hk']
        have : ¬ k' = k := fun h => hk (hk' ▸ h ▸ rfl)
        simp [this]
      · rw [lookupMetric_cons ⟨ak, av⟩, lookupMetric_cons ⟨ak, av⟩,
          if_neg hk', if_neg hk']
        exact ih

/-- Lookup in a dictionary whose every entry was extended by a
key-dependent suffix. -/
theorem lookupMetric_map_append (st : MetricDict) (c : Name → List ℚ)
    (key : Name) :
    lookupMetric (st.map fun p => (p.1, p.2 ++ c p.1)) key =
      (lookupMetric st key).map fun v => v ++ c key := by
  induction st with
  | nil => rfl
  | cons a st ih =>
    rw [List.map_cons]
    by_cases h : a.1 = key
    · rw [lookupMetric_cons (a.1, a.2 ++ c a.1), lookupMetric_cons a,
        if_pos h, if_pos h, h]
      rfl
    · rw [lookupMetric_cons (a.1, a.2 ++ c a.1), lookupMetric_cons a,
        if_neg h, if_neg h]
      exact ih

/-- In a dictionary with duplicate-free keys, membership determines the
lookup result. -/
theorem lookupMetric_eq_of_mem_nodup (d : MetricDict)
    (hnd : (d.map Prod.fst).Nodup) (q : Name × List ℚ) (hq : q ∈ d) :
    lookupMetric d q.1 = some q.2 := by
  induction d with
  | nil => cases hq
  | cons a d ih =>
    rw [List.map_cons, List.nodup_cons] at hnd
    rcases List.mem_cons.mp hq with rfl | hq'
    · rw [lookupMetric_cons, if_pos rfl]
    · have hne : a.1 ≠ q.1 := fun h =>
        hnd.1 (h ▸ List.mem_map.mpr ⟨q, hq', rfl⟩)
      rw [lookupMetric_cons, if_neg hne]
      exact ih hnd.2 hq'

/-- The key `'val_' + k` starts with `'val_'`. -/
theorem startsWithVal_valKey (s : Name) : startsWithVal (valKey s) = true := by
  simp [startsWithVal, valKey, valTag, List.isPrefixOf]

/-- The map `'val_' + ·` is injective. -/
theorem valKey_injective (a b : Name) (h : valKey a = valKey b) : a = b :=
  List.append_cancel_left h

/-- A key that does not start with `'val_'` differs from every
`'val_' + k`. -/
theorem nonval_ne_valKey (key k : Name) (h : startsWithVal key = false) :
    key ≠ valKey k := fun he => by
  rw [he, startsWithVal_valKey] at h
  cases h

/-- A non-`val_` key absent from the iteration list receives no
contribution. -/
theorem ftContrib_eq_nil_of_not_mem (f : MetricDict) (ks : List Name)
    (key : Name) (h1 : key ∉ ks) (h2 : startsWithVal key = false) :
    ftContrib f ks key = [] := by
  induction ks with
  | nil => rfl
  | cons k ks ih =>
    rw [ftContrib, if_neg, List.nil_append]
    · exact ih fun hk => h1 (List.mem_cons_of_mem _ hk)
    · rintro ⟨-, h | h⟩
      · exact h1 (h ▸ List.mem_cons_self _ _)
      · exact nonval_ne_valKey key k h2 h

/-- A `val_` key whose base is absent from the iteration list receives no
contribution. -/
theorem ftContrib_valKey_eq_nil_of_not_mem (f : MetricDict) (ks : List Name)
    (m : Name) (h1 : m ∉ ks) :
    ftContrib f ks (valKey m) = [] := by
  induction ks with
  | nil => rfl
  | cons k ks ih =>
    rw [ftContrib, if_neg, List.nil_append]
    · exact ih fun hk => h1 (List.mem_cons_of_mem _ hk)
    · rintro ⟨hkv, h | h⟩
      · rw [← h] at hkv
        rw [startsWithVal_valKey] at hkv
        cases hkv
      · exact h1 (valKey_injective m k h ▸ List.mem_cons_self _ _)

/-- For a duplicate-free iteration list, a non-`val_` key receives exactly
the fine-tuning values stored under it. -/
theorem ftContrib_eq_of_mem (f : MetricDict) (ks : List Name) (key : Name)
    (hnd : ks.Nodup) (hkey : key ∈ ks) (hval : startsWithVal key = false) :
    ftContrib f ks key = (lookupMetric f key).getD [] := by
  induction ks with
  | nil => cases hkey
  | cons k ks ih =>
    rw [List.nodup_cons] at hnd
    rcases List.mem_cons.mp hkey with rfl | hkey'
    · rw [ftContrib, if_pos ⟨hval, Or.inl rfl⟩,
        ftContrib_eq_nil_of_not_mem f ks key hnd.1 hval, List.append_nil]
    · rw [ftContrib, if_neg, List.nil_append]
      · exact ih hnd.2 hkey'
      · rintro ⟨-, h | h⟩
        · exact hnd.1 (h ▸ hkey')
        · exact nonval_ne_valKey key k hval h

/-- For a duplicate-free iteration list, the `val_` companion of a
non-`val_` member receives exactly the fine-tuning values stored under
it. -/
theorem ftContrib_valKey_eq_of_mem (f : MetricDict) (ks : List Name)
    (m : Name) (hnd : ks.Nodup) (hm : m ∈ ks)
    (hval : startsWithVal m = false) :
    ftContrib f ks (valKey m) = (lookupMetric f (valKey m)).getD [] := by
  induction ks with
  | nil => cases hm
  | cons k ks ih =>
    rw [List.nodup_cons] at hnd
    rcases List.mem_cons.mp hm with rfl | hm'
    · rw [ftContrib, if_pos ⟨hval, Or.inr rfl⟩,
        ftContrib_valKey_eq_nil_of_not_mem f ks m hnd.1, List.append_nil]
    · rw [ftContrib, if_neg, List.nil_append]
      · exact ih hnd.2 hm'
      · rintro ⟨hkv, h | h⟩
        · rw [← h] at hkv
          rw [startsWithVal_valKey] at hkv
          cases hkv
        · exact hnd.1 (valKey_injective m k h ▸ hm')

/-- One loop iteration with `history_ft=None` never changes the
dictionary state. -/
theorem processMetricKey_none_fst (st : MetricDict) (k : Name) :
    (processMetricKey none st k).1 = st := by
  unfold processMetricKey
  by_cases hv : startsWithVal k = true
  · rw [if_pos hv]
  · rw [if_neg hv]
    rcases lookupMetric st (valKey k) with _ | sv
    · rfl
    · rfl

/-- The whole loop with `history_ft=None` never changes the dictionary
state (whether or not it raises). -/
theorem processMetricKeys_none_fst (ks : List Name) (st : MetricDict) :
    (processMetricKeys none st ks).1 = st := by
  induction ks generalizing st with
  | nil => rfl
  | cons k ks ih =>
    rw [processMetricKeys]
    rcases hpk : processMetricKey none st k with ⟨st1, e⟩
    have hst1 : st1 = st := by
      have := processMetricKey_none_fst st k
      rw [hpk] at this
      exact this
    subst hst1
    cases e with
    | none => exact ih st1
    | some e => rfl

/-- Characterization of the loop with a fine-tuning history: when for
every non-`val_` key the validation companion exists in the state and
both lookups succeed in the fine-tuning history, the loop terminates
without raising and extends every entry by its contribution. -/
theorem processMetricKeys_spec (f : History) (ks : List Name) (st : MetricDict)
    (hok : ∀ k ∈ ks, startsWithVal k = false →
      (lookupMetric st (valKey k)).isSome = true ∧
      (lookupMetric f.history k).isSome = true ∧
      (lookupMetric f.history (valKey k)).isSome = true) :
    processMetricKeys (some f) st ks =
      ((st.map fun q => (q.1, q.2 ++ ftContrib f.history ks q.1)), none) := by
  induction ks generalizing st with
  | nil =>
    simp only [processMetricKeys, ftContrib, List.append_nil]
    rw [show (fun q : Name × List ℚ => (q.1, q.2)) = id from rfl, List.map_id]
  | cons k ks ih =>
    cases hval : startsWithVal k with
    | true =>
      have hstep : processMetricKey (some f) st k = (st, none) := by
        unfold processMetricKey
        rw [if_pos hval]
      rw [processMetricKeys, hstep]
      show processMetricKeys (some f) st ks = _
      rw [ih st fun k' h1 h2 => hok k' (List.mem_cons_of_mem _ h1) h2]
      have hc : ∀ key, ftContrib f.history (k :: ks) key =
          ftContrib f.history ks key := by
        intro key
        rw [ftContrib, if_neg, List.nil_append]
        rintro ⟨hc', -⟩
        rw [hval] at hc'
        cases hc'
      simp only [hc]
    | false =>
      obtain ⟨hv, hfk, hfv⟩ := hok k (List.mem_cons_self _ _) hval
      obtain ⟨sv, hsv⟩ := Option.isSome_iff_exists.mp hv
      obtain ⟨tv, htv⟩ := Option.isSome_iff_exists.mp hfk
      obtain ⟨vv, hvv⟩ := Option.isSome_iff_exists.mp hfv
      have hstep : processMetricKey (some f) st k =
          (extendMetric (extendMetric st k tv) (valKey k) vv, none) := by
        simp only [processMetricKey, hval, Bool.false_eq_true, if_false,
          hsv, htv, hvv]
      rw [processMetricKeys, hstep]
      show processMetricKeys (some f)
        (extendMetric (extendMetric st k tv) (valKey k) vv) ks = _
      have hok2 : ∀ k' ∈ ks, startsWithVal k' = false →
          (lookupMetric (extendMetric (extendMetric st k tv) (valKey k) vv)
            (valKey k')).isSome = true ∧
          (lookupMetric f.history k').isSome = true ∧
          (lookupMetric f.history (valKey k')).isSome = true := by
        intro k' h1 h2
        obtain ⟨ha, hb, hcc⟩ := hok k' (List.mem_cons_of_mem _ h1) h2
        refine ⟨?_, hb, hcc⟩
        rw [lookupMetric_extendMetric, lookupMetric_extendMetric,
          Option.isSome_map', Option.isSome_map']
        exact ha
      rw [ih _ hok2]
      rw [extendMetric, extendMetric, List.map_map, List.map_map]
      have hfun : ∀ q : Name × List ℚ,
          (((fun q : Name × List ℚ => (q.1, q.2 ++ ftContrib f.history ks q.1)) ∘
            fun p : Name × List ℚ =>
              if p.1 = valKey k then (p.1, p.2 ++ vv) else p) ∘
            fun p : Name × List ℚ => if p.1 = k then (p.1, p.2 ++ tv) else p) q =
          (q.1, q.2 ++ ftContrib f.history (k :: ks) q.1) := by
        intro q
        simp only [Function.comp_apply]
        by_cases h1 : q.1 = k
        · rw [if_pos h1, if_neg (show ¬ (q.1, q.2 ++ tv).1 = valKey k from by
            simp only []
            rw [h1]
            exact nonval_ne_valKey k k hval)]
          rw [ftContrib, if_pos ⟨hval, Or.inl h1⟩, h1, htv]
          simp [List.append_assoc]
        · by_cases h2 : q.1 = valKey k
          · rw [if_neg h1, if_pos h2]
            rw [ftContrib, if_pos ⟨hval, Or.inr h2⟩, h2, hvv]
            simp [List.append_assoc]
          · rw [if_neg h1, if_neg h2]
            rw [ftContrib, if_neg, List.nil_append]
            rintro ⟨-, h | h⟩
            · exact h1 h
            · exact h2 h
      rw [List.map_congr_left fun q _ => hfun q]

/-- Claim C10: `plot_learning_curves` aliases the lists held by
`history.history` (`train_values = history.history[metric]`,
`val_values = history.history[val_metric]`) and, when a fine-tuning
history is passed, extends them in place with `+=`.  Consequently, for a
well-formed pair of histories (duplicate-free metric keys, every
non-`val_` metric accompanied by its `val_` companion and present in the
fine-tuning history) and a non-`None` save path, the call leaves
`epoch` unchanged but appends the fine-tuning train and validation values
to the respective lists inside the passed `history`, which therefore does
not stay unchanged whenever some fine-tuning value list is nonempty;
with `history_ft=None` the history comes back unmodified, whatever the
other arguments. -/
theorem plot_learning_curves_mutates_history :
    (∀ (hs : History) (sp : Option String),
      (plotLearningCurves hs none sp).1 = hs) ∧
    (∀ (hs fth : History) (p : String),
      hs.epoch ≠ [] →
      (hs.history.map Prod.fst).Nodup →
      (∀ q ∈ hs.history, startsWithVal q.1 = false →
        (lookupMetric hs.history (valKey q.1)).isSome = true ∧
        (lookupMetric fth.history q.1).isSome = true ∧
        (lookupMetric fth.history (valKey q.1)).isSome = true) →
      (plotLearningCurves hs (some fth) (some p)).1.epoch = hs.epoch ∧
      (∀ q ∈ hs.history, startsWithVal q.1 = false →
        ∀ tv, lookupMetric fth.history q.1 = some tv →
          lookupMetric (plotLearningCurves hs (some fth) (some p)).1.history q.1 =
            some (q.2 ++ tv)) ∧
      (∀ q ∈ hs.history, startsWithVal q.1 = false →
        ∀ vv0 vv, lookupMetric hs.history (valKey q.1) = some vv0 →
          lookupMetric fth.history (valKey q.1) = some vv →
            lookupMetric (plotLearningCurves hs (some fth) (some p)).1.history
              (valKey q.1) = some (vv0 ++ vv)) ∧
      (∀ q ∈ hs.history, startsWithVal q.1 = false →
        ∀ tv, lookupMetric fth.history q.1 = some tv → tv ≠ [] →
          (plotLearningCurves hs (some fth) (some p)).1 ≠ hs)) := by
  constructor
  · intro hs sp
    unfold plotLearningCurves
    rcases sp with _ | p
    · rfl
    · by_cases he : hs.epoch.isEmpty = true
      · rw [if_neg (by simp), if_pos he]
      · rw [if_neg (by simp), if_neg he]
        show (⟨hs.epoch, (processMetricKeys none hs.history
          (hs.history.map Prod.fst)).1⟩ : History) = hs
        rw [processMetricKeys_none_fst]
  · intro hs fth p hep hnd hcond
    have hie : hs.epoch.isEmpty = false := by
      cases hh : hs.epoch with
      | nil => exact absurd hh hep
      | cons a l => rfl
    have hok : ∀ k ∈ hs.history.map Prod.fst, startsWithVal k = false →
        (lookupMetric hs.history (valKey k)).isSome = true ∧
        (lookupMetric fth.history k).isSome = true ∧
        (lookupMetric fth.history (valKey k)).isSome = true := by
      intro k hk h2
      obtain ⟨q, hq, rfl⟩ := List.mem_map.mp hk
      exact hcond q hq h2
    have hrun : (plotLearningCurves hs (some fth) (some p)).1 =
        ⟨hs.epoch, hs.history.map fun q =>
          (q.1, q.2 ++ ftContrib fth.history (hs.history.map Prod.fst) q.1)⟩ := by
      unfold plotLearningCurves
      rw [if_neg (by simp), if_neg (by rw [hie]; exact Bool.false_ne_true)]
      rw [processMetricKeys_spec fth _ hs.history hok]
    have htrain : ∀ q ∈ hs.history, startsWithVal q.1 = false →
        ∀ tv, lookupMetric fth.history q.1 = some tv →
          lookupMetric (plotLearningCurves hs (some fth) (some p)).1.history q.1 =
            some (q.2 ++ tv) := by
      intro q hq hqv tv htv
      rw [hrun]
      show lookupMetric (hs.history.map fun q =>
        (q.1, q.2 ++ ftContrib fth.history (hs.history.map Prod.fst) q.1)) q.1 = _
      rw [lookupMetric_map_append, lookupMetric_eq_of_mem_nodup hs.history hnd q hq]
      rw [Option.map_some']
      rw [ftContrib_eq_of_mem fth.history _ q.1 hnd
        (List.mem_map.mpr ⟨q, hq, rfl⟩) hqv, htv]
      rfl
    refine ⟨by rw [hrun], htrain, ?_, ?_⟩
    · intro q hq hqv vv0 vv hvv0 hvv
      rw [hrun]
      show lookupMetric (hs.history.map fun q =>
        (q.1, q.2 ++ ftContrib fth.history (hs.history.map Prod.fst) q.1))
        (valKey q.1) = _
      rw [lookupMetric_map_append, hvv0, Option.map_some']
      rw [ftContrib_valKey_eq_of_mem fth.history _ q.1 hnd
        (List.mem_map.mpr ⟨q, hq, rfl⟩) hqv, hvv]
      rfl
    · intro q hq hqv tv htv htvne heq
      have hres := htrain q hq hqv tv htv
      rw [heq, lookupMetric_eq_of_mem_nodup hs.history hnd q hq] at hres
      have hinj := Option.some.inj hres
      have hlen := congrArg List.length hinj
      rw [List.length_append] at hlen
      exact htvne (List.length_eq_zero.mp (by omega))

/-- Witness for C10: a one-metric history (`loss` with one recorded
epoch); passing a fine-tuning history mutates it, passing `None` leaves
it unchanged. -/
theorem plot_learning_curves_mutates_history_witness :
    (plotLearningCurves
        ⟨[0], [(['l', 'o', 's', 's'], [(1 : ℚ)]), (valKey ['l', 'o', 's', 's'], [(2 : ℚ)])]⟩
        none (some "plots")).1 =
      ⟨[0], [(['l', 'o', 's', 's'], [(1 : ℚ)]), (valKey ['l', 'o', 's', 's'], [(2 : ℚ)])]⟩ ∧
    (plotLearningCurves
        ⟨[0], [(['l', 'o', 's', 's'], [(1 : ℚ)]), (valKey ['l', 'o', 's', 's'], [(2 : ℚ)])]⟩
        (some ⟨[1], [(['l', 'o', 's', 's'], [(3 : ℚ)]), (valKey ['l', 'o', 's', 's'], [(4 : ℚ)])]⟩)
        (some "plots")).1 ≠
      ⟨[0], [(['l', 'o', 's', 's'], [(1 : ℚ)]), (valKey ['l', 'o', 's', 's'], [(2 : ℚ)])]⟩ :=
  ⟨plot_learning_curves_mutates_history.1 _ (some "plots"),
   (plot_learning_curves_mutates_history.2
      ⟨[0], [(['l', 'o', 's', 's'], [(1 : ℚ)]), (valKey ['l', 'o', 's', 's'], [(2 : ℚ)])]⟩
      ⟨[1], [(['l', 'o', 's', 's'], [(3 : ℚ)]), (valKey ['l', 'o', 's', 's'], [(4 : ℚ)])]⟩
      "plots" (List.cons_ne_nil _ _) (by decide) (by decide)).2.2.2
      (['l', 'o', 's', 's'], [(1 : ℚ)]) (List.mem_cons_self _ _) rfl
      [(3 : ℚ)] rfl (List.cons_ne_nil _ _)⟩

end Covid19
